import Mathlib

/-!
Verification of the ATQOS orchestration kernel against its specification.

This file gives a shallow embedding of the parts of the ATQOS source that
the specification's claims are about, and proves (or refutes) each claim
over that embedding:

* the `tasks` table of the SQLite store and its `ClaimNextTask` /
  `UpdateTaskStatus` operations (`internal/store`);
* the worker loop of the engine executor (`internal/engine/worker.go`),
  including validation-exit accumulation and the checkpoint tracker;
* the generic command runner (`internal/runner/runner.go`);
* the agent adapters (`internal/agent`);
* the repository environment probe (`internal/repo/adapter.go`);
* the pytest plugin's finding normalization (`hashFinding` and friends).

External effects (SQL engine, subprocesses, the filesystem, JSON codecs)
are modelled by explicit oracle parameters: the embedded function receives
the outcome of the effect as an argument and reproduces the source's
control flow on it.  Time is modelled as a natural number of minutes where
it matters (checkpoint tracker) and as an abstract tick otherwise.
-/

namespace ATQOS

/-- One row of the `tasks` table, with the columns of the v1 schema.
Timestamps are abstract instants (`Nat`); nullable columns are `Option`. -/
structure TaskRow where
  id : Int
  runId : String
  tool : String
  taskType : String
  priority : Int
  status : String
  fingerprint : String
  title : String
  description : String
  targetsJson : String
  validationJson : String
  retryPolicyJson : String
  dependsOnJson : String
  extraJson : String
  claimedBy : Option String
  claimedAt : Option Nat
  createdAt : Nat
  updatedAt : Nat
deriving Repr, DecidableEq

/-- The `tasks` table contents. -/
abbrev TaskTable := List TaskRow

/-- The `WHERE run_id = ? AND status = 'queued'` filter of `ClaimNextTask`. -/
def isQueuedFor (runId : String) (r : TaskRow) : Bool :=
  r.runId == runId && r.status == "queued"

/-- Row `b` sorts strictly before row `a` under
`ORDER BY priority DESC, created_at ASC`. -/
abbrev Beats (b a : TaskRow) : Prop :=
  b.priority > a.priority ∨ (b.priority = a.priority ∧ b.createdAt < a.createdAt)

/-- Keep the better of two candidate rows under the claim ordering. -/
def pickBetter (a b : TaskRow) : TaskRow :=
  if Beats b a then b else a

/-- The `SELECT ... ORDER BY priority DESC, created_at ASC LIMIT 1` of
`SQLiteStore.ClaimNextTask`: the best queued row of the run, if any. -/
def selectQueued (runId : String) (tasks : TaskTable) : Option TaskRow :=
  match tasks.filter (isQueuedFor runId) with
  | [] => none
  | c :: rest => some (rest.foldl pickBetter c)

/-- The claim-time mutation applied both to the stored row and the returned
record: `SET status='running', claimed_by=?, claimed_at=?, updated_at=?`. -/
def claimRow (workerId : String) (now : Nat) (r : TaskRow) : TaskRow :=
  { r with status := "running", claimedBy := some workerId,
           claimedAt := some now, updatedAt := now }

/-- `SQLiteStore.ClaimNextTask`: one serialized write transaction that
selects the best queued row of the run and conditionally updates it
(`WHERE id = ? AND status = 'queued'`).  The store serializes these
transactions on the writer latch, so a concurrent history is an arbitrary
sequence of these atomic steps. -/
def claimNextTask (runId workerId : String) (now : Nat) (tasks : TaskTable) :
    Option TaskRow × TaskTable :=
  match selectQueued runId tasks with
  | none => (none, tasks)
  | some t =>
      (some (claimRow workerId now t),
       tasks.map fun r =>
         if r.id == t.id && r.status == "queued" then claimRow workerId now r else r)

/-- `SQLiteStore.UpdateTaskStatus`:
`UPDATE tasks SET status=?, extra_json=?, updated_at=? WHERE id=?`. -/
def updateTaskStatus (taskId : Int) (status extraJson : String) (now : Nat)
    (tasks : TaskTable) : TaskTable :=
  tasks.map fun r =>
    if r.id == taskId then
      { r with status := status, extraJson := extraJson, updatedAt := now }
    else r

/-- Statuses of all rows with a given task id (for stating row-level facts
without binders). -/
def taskStatuses (tasks : TaskTable) (taskId : Int) : List String :=
  (tasks.filter fun r => r.id == taskId).map TaskRow.status

/- ### Lemmas about the claim selection -/

theorem foldl_pickBetter_mem (c : TaskRow) (l : List TaskRow) :
    l.foldl pickBetter c ∈ c :: l := by
  induction l generalizing c with
  | nil => simp
  | cons b rest ih =>
      rw [List.foldl_cons]
      by_cases hb : Beats b c
      · have hpb : pickBetter c b = b := if_pos hb
        rw [hpb]
        exact List.mem_cons_of_mem c (ih b)
      · have hpb : pickBetter c b = c := if_neg hb
        rw [hpb]
        rcases List.mem_cons.mp (ih c) with h' | h'
        · rw [h']; simp
        · simp only [List.mem_cons]; tauto

theorem beats_trans_not {m b c : TaskRow} (h1 : ¬ Beats b m) (h2 : Beats b c) :
    ¬ Beats c m := by
  unfold Beats at *
  omega

theorem beats_not_trans {m b c : TaskRow} (h1 : ¬ Beats b c) (h2 : ¬ Beats c m) :
    ¬ Beats b m := by
  unfold Beats at *
  omega

theorem foldl_pickBetter_best (c : TaskRow) (l : List TaskRow) :
    ∀ q ∈ c :: l, ¬ Beats q (l.foldl pickBetter c) := by
  induction l generalizing c with
  | nil =>
      intro q hq
      simp at hq
      subst hq
      rw [List.foldl_nil]
      unfold Beats
      omega
  | cons b rest ih =>
      intro q hq
      rw [List.foldl_cons]
      by_cases hb : Beats b c
      · have hpb : pickBetter c b = b := if_pos hb
        rw [hpb]
        have hmem := ih b
        rcases List.mem_cons.mp hq with hq' | hq'
        · subst hq'
          have hbm : ¬ Beats b (rest.foldl pickBetter b) := hmem b (by simp)
          exact beats_trans_not hbm hb
        · exact hmem q hq'
      · have hpb : pickBetter c b = c := if_neg hb
        rw [hpb]
        have hmem := ih c
        rcases List.mem_cons.mp hq with hq' | hq'
        · subst hq'
          exact hmem q (by simp)
        · rcases List.mem_cons.mp hq' with hq'' | hq''
          · subst hq''
            have hcm : ¬ Beats c (rest.foldl pickBetter c) := hmem c (by simp)
            exact beats_not_trans hb hcm
          · exact hmem q (by simp [hq''])

theorem selectQueued_mem {runId : String} {tasks : TaskTable} {t : TaskRow}
    (h : selectQueued runId tasks = some t) :
    t ∈ tasks ∧ t.runId = runId ∧ t.status = "queued" := by
  unfold selectQueued at h
  cases hf : tasks.filter (isQueuedFor runId) with
  | nil => rw [hf] at h; simp at h
  | cons c rest =>
      rw [hf] at h
      simp at h
      have hmem : t ∈ c :: rest := h ▸ foldl_pickBetter_mem c rest
      rw [← hf] at hmem
      have := List.mem_filter.mp hmem
      refine ⟨this.1, ?_, ?_⟩ <;>
        · have hb := this.2
          unfold isQueuedFor at hb
          simp at hb
          tauto

theorem selectQueued_best {runId : String} {tasks : TaskTable} {t : TaskRow}
    (h : selectQueued runId tasks = some t) :
    ∀ q ∈ tasks, q.runId = runId → q.status = "queued" →
      q.priority ≤ t.priority ∧ (q.priority = t.priority → t.createdAt ≤ q.createdAt) := by
  intro q hq hqr hqs
  unfold selectQueued at h
  cases hf : tasks.filter (isQueuedFor runId) with
  | nil =>
      exfalso
      have : q ∈ tasks.filter (isQueuedFor runId) := by
        apply List.mem_filter.mpr
        exact ⟨hq, by unfold isQueuedFor; simp [hqr, hqs]⟩
      rw [hf] at this; simp at this
  | cons c rest =>
      rw [hf] at h
      simp at h
      have hqmem : q ∈ c :: rest := by
        rw [← hf]
        apply List.mem_filter.mpr
        exact ⟨hq, by unfold isQueuedFor; simp [hqr, hqs]⟩
      have hbest := foldl_pickBetter_best c rest q hqmem
      rw [h] at hbest
      unfold Beats at hbest
      omega

theorem selectQueued_none {runId : String} {tasks : TaskTable}
    (h : ∀ r ∈ tasks, ¬(r.runId = runId ∧ r.status = "queued")) :
    selectQueued runId tasks = none := by
  unfold selectQueued
  have : tasks.filter (isQueuedFor runId) = [] := by
    apply List.filter_eq_nil_iff.mpr
    intro r hr
    unfold isQueuedFor
    simp
    intro hrid
    have := h r hr
    tauto
  rw [this]

theorem claimNextTask_none_iff (runId workerId : String) (now : Nat)
    (tasks : TaskTable) :
    (claimNextTask runId workerId now tasks).1 = none ↔
      ∀ r ∈ tasks, ¬(r.runId = runId ∧ r.status = "queued") := by
  constructor
  · intro h r hr hprop
    cases hs : selectQueued runId tasks with
    | none =>
        unfold selectQueued at hs
        cases hf : tasks.filter (isQueuedFor runId) with
        | nil =>
            have hrin : r ∈ tasks.filter (isQueuedFor runId) := by
              apply List.mem_filter.mpr
              exact ⟨hr, by unfold isQueuedFor; simp [hprop.1, hprop.2]⟩
            rw [hf] at hrin; simp at hrin
        | cons c rest => rw [hf] at hs; simp at hs
    | some t =>
        unfold claimNextTask at h
        rw [hs] at h
        simp at h
  · intro h
    unfold claimNextTask
    rw [selectQueued_none h]

theorem claimNextTask_none_no_mutation (runId workerId : String) (now : Nat)
    (tasks : TaskTable)
    (h : (claimNextTask runId workerId now tasks).1 = none) :
    (claimNextTask runId workerId now tasks).2 = tasks := by
  cases hs : selectQueued runId tasks with
  | none => unfold claimNextTask; rw [hs]
  | some t =>
      exfalso
      unfold claimNextTask at h
      rw [hs] at h
      simp at h

theorem claimNextTask_some_best {runId workerId : String} {now : Nat}
    {tasks : TaskTable} {t : TaskRow}
    (h : (claimNextTask runId workerId now tasks).1 = some t) :
    ∃ r ∈ tasks, r.runId = runId ∧ r.status = "queued" ∧
      t = claimRow workerId now r ∧
      ∀ q ∈ tasks, q.runId = runId → q.status = "queued" →
        q.priority ≤ r.priority ∧
        (q.priority = r.priority → r.createdAt ≤ q.createdAt) := by
  unfold claimNextTask at h
  cases hs : selectQueued runId tasks with
  | none => rw [hs] at h; simp at h
  | some t' =>
      rw [hs] at h
      simp at h
      obtain ⟨hmem, hrid, hst⟩ := selectQueued_mem hs
      exact ⟨t', hmem, hrid, hst, h.symm, selectQueued_best hs⟩

/-- C6 — `claim_next_task` selects the single highest-priority queued task
of the run, tie-breaking by earliest `created_at`; on an empty queue it
returns no task and makes no mutation. -/
theorem claimNextTask_selects_best (runId workerId : String) (now : Nat)
    (tasks : TaskTable) :
    ((claimNextTask runId workerId now tasks).1 = none ↔
      ∀ r ∈ tasks, ¬(r.runId = runId ∧ r.status = "queued")) ∧
    ((claimNextTask runId workerId now tasks).1 = none →
      (claimNextTask runId workerId now tasks).2 = tasks) ∧
    (∀ t, (claimNextTask runId workerId now tasks).1 = some t →
      ∃ r ∈ tasks, r.runId = runId ∧ r.status = "queued" ∧
        t = claimRow workerId now r ∧
        ∀ q ∈ tasks, q.runId = runId → q.status = "queued" →
          q.priority ≤ r.priority ∧
          (q.priority = r.priority → r.createdAt ≤ q.createdAt)) :=
  ⟨claimNextTask_none_iff runId workerId now tasks,
   claimNextTask_none_no_mutation runId workerId now tasks,
   fun _ h => claimNextTask_some_best h⟩

/-- C6 witness: the selection theorem evaluated on a concrete two-task
store, with all hypotheses discharged. -/
theorem claimNextTask_selects_best_witness :
    ∃ r ∈ ([⟨1, "r", "pytest", "fix", 100, "queued", "f1", "t1", "d1", "tg", "vj",
              "rp", "", "", none, none, 0, 0⟩,
            ⟨2, "r", "pytest", "fix", 50, "queued", "f2", "t2", "d2", "tg", "vj",
              "rp", "", "", none, none, 1, 1⟩] : TaskTable),
      r.runId = "r" ∧ r.status = "queued" ∧
      (⟨1, "r", "pytest", "fix", 100, "running", "f1", "t1", "d1", "tg", "vj",
         "rp", "", "", some "w", some 7, 0, 7⟩ : TaskRow) = claimRow "w" 7 r ∧
      ∀ q ∈ ([⟨1, "r", "pytest", "fix", 100, "queued", "f1", "t1", "d1", "tg", "vj",
                "rp", "", "", none, none, 0, 0⟩,
              ⟨2, "r", "pytest", "fix", 50, "queued", "f2", "t2", "d2", "tg", "vj",
                "rp", "", "", none, none, 1, 1⟩] : TaskTable),
        q.runId = "r" → q.status = "queued" →
          q.priority ≤ r.priority ∧
          (q.priority = r.priority → r.createdAt ≤ q.createdAt) :=
  (claimNextTask_selects_best "r" "w" 7 _).2.2 _ (by decide)

/- ### At-most-once claim under arbitrary interleavings (C1) -/

/-- A claim history: one entry per `ClaimNextTask` transaction in commit
order (the store serializes the write transactions on the writer latch),
carrying the caller's run id, worker id and commit instant. -/
abbrev ClaimOp := String × String × Nat

/-- Run a history of claim transactions against the store, collecting each
transaction's returned task. -/
def claimSeq : List ClaimOp → TaskTable → List (Option TaskRow)
  | [], _ => []
  | op :: ops, tasks =>
      (claimNextTask op.1 op.2.1 op.2.2 tasks).1 ::
        claimSeq ops (claimNextTask op.1 op.2.1 op.2.2 tasks).2

/-- No row with the given id is still in status `queued`. -/
def NotQueued (taskId : Int) (tasks : TaskTable) : Prop :=
  ∀ r ∈ tasks, r.id = taskId → r.status ≠ "queued"

theorem claim_preserves_notQueued {taskId : Int} {tasks : TaskTable}
    (h : NotQueued taskId tasks) (runId workerId : String) (now : Nat) :
    NotQueued taskId (claimNextTask runId workerId now tasks).2 := by
  unfold claimNextTask
  cases hs : selectQueued runId tasks with
  | none => exact h
  | some t =>
      intro r' hr' hid
      simp only [List.mem_map] at hr'
      obtain ⟨r, hr, hfr⟩ := hr'
      by_cases hc : (r.id == t.id && r.status == "queued") = true
      · rw [if_pos hc] at hfr
        rw [← hfr]
        intro hcontra
        exact absurd hcontra (by unfold claimRow; simp)
      · rw [if_neg hc] at hfr
        subst hfr
        exact h r hr hid

theorem claim_some_queued {runId workerId : String} {now : Nat}
    {tasks : TaskTable} {t : TaskRow}
    (h : (claimNextTask runId workerId now tasks).1 = some t) :
    ∃ r ∈ tasks, r.id = t.id ∧ r.status = "queued" := by
  unfold claimNextTask at h
  cases hs : selectQueued runId tasks with
  | none => rw [hs] at h; simp at h
  | some t' =>
      rw [hs] at h
      simp at h
      obtain ⟨hmem, _, hst⟩ := selectQueued_mem hs
      exact ⟨t', hmem, by rw [← h]; rfl, hst⟩

theorem claim_post_notQueued {runId workerId : String} {now : Nat}
    {tasks : TaskTable} {t : TaskRow}
    (h : (claimNextTask runId workerId now tasks).1 = some t) :
    NotQueued t.id (claimNextTask runId workerId now tasks).2 := by
  unfold claimNextTask at h ⊢
  cases hs : selectQueued runId tasks with
  | none => rw [hs] at h; simp at h
  | some t' =>
      rw [hs] at h
      simp at h
      intro r' hr' hid
      simp only [List.mem_map] at hr'
      obtain ⟨r, hr, hfr⟩ := hr'
      by_cases hc : (r.id == t'.id && r.status == "queued") = true
      · rw [if_pos hc] at hfr
        rw [← hfr]
        intro hcontra
        exact absurd hcontra (by unfold claimRow; simp)
      · rw [if_neg hc] at hfr
        subst hfr
        have ht : t.id = t'.id := by rw [← h]; rfl
        have hid' : r.id = t'.id := hid.trans ht
        intro hst
        exact hc (by simp [hid', hst])

theorem notQueued_claimSeq {taskId : Int} (ops : List ClaimOp)
    (tasks : TaskTable) (h : NotQueued taskId tasks) :
    ∀ o ∈ claimSeq ops tasks, ∀ t2, o = some t2 → t2.id ≠ taskId := by
  induction ops generalizing tasks with
  | nil => intro o ho; simp [claimSeq] at ho
  | cons op ops ih =>
      intro o ho t2 ho2
      simp only [claimSeq, List.mem_cons] at ho
      rcases ho with ho' | ho'
      · have ho'' : (claimNextTask op.1 op.2.1 op.2.2 tasks).1 = some t2 := by
          rw [← ho']; exact ho2
        obtain ⟨r, hr, hid, hst⟩ := claim_some_queued ho''
        intro heq
        exact h r hr (hid.trans heq) hst
      · exact ih _ (claim_preserves_notQueued h op.1 op.2.1 op.2.2) o ho' t2 ho2

/-- C1 — task claim is at-most-once: over any serialized history of
`ClaimNextTask` transactions (the store's writer latch serializes
concurrent workers), no two transactions return the same task, so a task
is observed as claimed (status `running`) by at most one worker; and a
transaction that returns no task makes no mutation and certifies that the
run's queue held no queued task. -/
theorem claim_at_most_once (ops : List ClaimOp) (tasks : TaskTable) :
    (claimSeq ops tasks).Pairwise
      (fun a b => ∀ t1 t2, a = some t1 → b = some t2 → t1.id ≠ t2.id) ∧
    (∀ runId workerId now ts,
      (claimNextTask runId workerId now ts).1 = none →
        (claimNextTask runId workerId now ts).2 = ts ∧
        ∀ r ∈ ts, ¬(r.runId = runId ∧ r.status = "queued")) := by
  constructor
  · induction ops generalizing tasks with
    | nil => simp [claimSeq]
    | cons op ops ih =>
        simp only [claimSeq]
        refine List.Pairwise.cons ?_ (ih _)
        intro b hb t1 t2 h1 h2
        have hpost := claim_post_notQueued h1
        have hne := notQueued_claimSeq ops _ hpost b hb t2 h2
        exact Ne.symm hne
  · intro runId workerId now ts h
    exact ⟨claimNextTask_none_no_mutation runId workerId now ts h,
           (claimNextTask_none_iff runId workerId now ts).mp h⟩

/-- C1 witness: the at-most-once theorem instantiated on a concrete
three-transaction history over a concrete two-task store. -/
theorem claim_at_most_once_witness :
    (claimSeq [("r", "w1", 3), ("r", "w2", 4), ("r", "w3", 5)]
        [⟨1, "r", "pytest", "fix", 100, "queued", "f1", "t1", "d1", "tg", "vj",
           "rp", "", "", none, none, 0, 0⟩,
         ⟨2, "r", "pytest", "fix", 50, "queued", "f2", "t2", "d2", "tg", "vj",
           "rp", "", "", none, none, 1, 1⟩]).Pairwise
      (fun a b => ∀ t1 t2, a = some t1 → b = some t2 → t1.id ≠ t2.id) :=
  (claim_at_most_once _ _).1

/-- C10 — `UpdateTaskStatus` is frame-preserving: only the `status`,
`extra_json` and `updated_at` columns of rows with the addressed id change;
every other column (in particular `claimed_by` / `claimed_at`) and every
other row are unchanged. -/
theorem updateTaskStatus_frame (taskId : Int) (status extraJson : String)
    (now : Nat) (tasks : TaskTable) :
    (updateTaskStatus taskId status extraJson now tasks).length = tasks.length ∧
    ∀ i : Nat, ∀ (hi : i < tasks.length)
      (hi' : i < (updateTaskStatus taskId status extraJson now tasks).length),
      ((tasks.get ⟨i, hi⟩).id ≠ taskId →
        (updateTaskStatus taskId status extraJson now tasks).get ⟨i, hi'⟩ =
          tasks.get ⟨i, hi⟩) ∧
      ((tasks.get ⟨i, hi⟩).id = taskId →
        ((updateTaskStatus taskId status extraJson now tasks).get ⟨i, hi'⟩).status = status ∧
        ((updateTaskStatus taskId status extraJson now tasks).get ⟨i, hi'⟩).extraJson = extraJson ∧
        ((updateTaskStatus taskId status extraJson now tasks).get ⟨i, hi'⟩).updatedAt = now ∧
        ((updateTaskStatus taskId status extraJson now tasks).get ⟨i, hi'⟩).claimedBy =
          (tasks.get ⟨i, hi⟩).claimedBy ∧
        ((updateTaskStatus taskId status extraJson now tasks).get ⟨i, hi'⟩).claimedAt =
          (tasks.get ⟨i, hi⟩).claimedAt ∧
        ((updateTaskStatus taskId status extraJson now tasks).get ⟨i, hi'⟩).id =
          (tasks.get ⟨i, hi⟩).id ∧
        ((updateTaskStatus taskId status extraJson now tasks).get ⟨i, hi'⟩).runId =
          (tasks.get ⟨i, hi⟩).runId ∧
        ((updateTaskStatus taskId status extraJson now tasks).get ⟨i, hi'⟩).priority =
          (tasks.get ⟨i, hi⟩).priority ∧
        ((updateTaskStatus taskId status extraJson now tasks).get ⟨i, hi'⟩).createdAt =
          (tasks.get ⟨i, hi⟩).createdAt ∧
        ((updateTaskStatus taskId status extraJson now tasks).get ⟨i, hi'⟩).validationJson =
          (tasks.get ⟨i, hi⟩).validationJson ∧
        ((updateTaskStatus taskId status extraJson now tasks).get ⟨i, hi'⟩).targetsJson =
          (tasks.get ⟨i, hi⟩).targetsJson ∧
        ((updateTaskStatus taskId status extraJson now tasks).get ⟨i, hi'⟩).fingerprint =
          (tasks.get ⟨i, hi⟩).fingerprint ∧
        ((updateTaskStatus taskId status extraJson now tasks).get ⟨i, hi'⟩).tool =
          (tasks.get ⟨i, hi⟩).tool ∧
        ((updateTaskStatus taskId status extraJson now tasks).get ⟨i, hi'⟩).taskType =
          (tasks.get ⟨i, hi⟩).taskType ∧
        ((updateTaskStatus taskId status extraJson now tasks).get ⟨i, hi'⟩).title =
          (tasks.get ⟨i, hi⟩).title ∧
        ((updateTaskStatus taskId status extraJson now tasks).get ⟨i, hi'⟩).description =
          (tasks.get ⟨i, hi⟩).description ∧
        ((updateTaskStatus taskId status extraJson now tasks).get ⟨i, hi'⟩).retryPolicyJson =
          (tasks.get ⟨i, hi⟩).retryPolicyJson ∧
        ((updateTaskStatus taskId status extraJson now tasks).get ⟨i, hi'⟩).dependsOnJson =
          (tasks.get ⟨i, hi⟩).dependsOnJson) := by
  constructor
  · unfold updateTaskStatus; simp
  · intro i hi hi'
    unfold updateTaskStatus at *
    constructor
    · intro hne
      simp only [List.get_eq_getElem] at *
      rw [List.getElem_map]
      simp [hne]
    · intro heq
      simp only [List.get_eq_getElem] at *
      rw [List.getElem_map]
      simp [heq]

/-- C10 witness: the frame theorem applied to a concrete one-row store. -/
theorem updateTaskStatus_frame_witness :
    ((updateTaskStatus 1 "blocked" "" 9
        [⟨1, "r", "pytest", "fix", 100, "running", "f1", "t1", "d1", "tg", "vj",
           "rp", "", "", some "w", some 7, 0, 7⟩]).get
      ⟨0, by decide⟩).claimedBy = some "w" :=
  ((updateTaskStatus_frame 1 "blocked" "" 9
      [⟨1, "r", "pytest", "fix", 100, "running", "f1", "t1", "d1", "tg", "vj",
         "rp", "", "", some "w", some 7, 0, 7⟩]).2 0 (by decide) (by decide)).2
    (by decide) |>.2.2.2.1

/- ### Validation execution (engine/worker.go, runValidation) -/

/-- One frozen validation command (`core.CommandSpec`).  The optional
environment overlay is irrelevant to the embedded control flow and
omitted. -/
structure CommandSpecM where
  runner : String
  args : List String
  cwd : String
  timeoutSeconds : Int
deriving Repr, DecidableEq

/-- `core.ValidationSpec` with its success criteria inlined
(`min_coverage_delta`, a float unused by every embedded code path, is
omitted). -/
structure ValidationSpecM where
  commands : List CommandSpecM
  requireExitCode0 : Bool
  maxNewFindings : Int
deriving Repr, DecidableEq

/-- What `Runner.Run` came back with for one validation command as
`runValidation` observes it: `failed` is a non-nil error (the accompanying
zero-value `ExecResult` carries exit code 0), `ok e` is a nil error with
exit code `e`. -/
inductive RunOutcome where
  | failed
  | ok (exitCode : Int)
deriving Repr, DecidableEq

/-- The exit code contributed by one command in `runValidation`'s loop:
a runner error forces 1, otherwise the result's exit code. -/
def observedCode : RunOutcome → Int
  | .failed => 1
  | .ok e => e

/-- `runValidation` of `engine/worker.go`: run every command of the spec
through the runner (with `AllowNonZero` and the workspace as working
directory, the outcome given by the oracle `exec`) and accumulate an exit
code exactly as the source loop does: a runner error sets the accumulator
to 1, a non-zero exit overwrites it, a zero exit leaves it. -/
def runValidationExit (exec : String → List String → String → RunOutcome)
    (spec : ValidationSpecM) (workspace : String) : Int :=
  spec.commands.foldl
    (fun acc c =>
      match exec c.runner c.args workspace with
      | .failed => 1
      | .ok e => if e = 0 then acc else e) 0

theorem observedCode_zero_iff (o : RunOutcome) :
    observedCode o = 0 ↔ o = .ok 0 := by
  cases o <;> simp [observedCode]

theorem foldl_keepNonZero (l : List Int) (acc : Int) :
    l.foldl (fun a e => if e = 0 then a else e) acc =
      (l.filter (fun e => e != 0)).getLastD acc := by
  induction l generalizing acc with
  | nil => rfl
  | cons e rest ih =>
      by_cases he : e = 0
      · rw [List.foldl_cons, if_pos he, ih, List.filter_cons]
        have hbe : (e != 0) = false := by simp [he]
        rw [hbe]
        simp
      · rw [List.foldl_cons, if_neg he, ih, List.filter_cons]
        have hbe : (e != 0) = true := by simp [he]
        rw [hbe]
        simp only [if_true]
        exact (List.getLastD_cons acc e _).symm

theorem foldl_keepNonZero_zero (l : List Int) (acc : Int) :
    l.foldl (fun a e => if e = 0 then a else e) acc = 0 ↔
      (acc = 0 ∧ ∀ e ∈ l, e = 0) := by
  induction l generalizing acc with
  | nil => simp
  | cons e rest ih =>
      by_cases he : e = 0
      · rw [List.foldl_cons, if_pos he, ih]
        simp [he]
      · rw [List.foldl_cons, if_neg he, ih]
        simp [he]

theorem runValidationExit_step (exec : String → List String → String → RunOutcome)
    (spec : ValidationSpecM) (workspace : String) :
    runValidationExit exec spec workspace =
      (spec.commands.map fun c => observedCode (exec c.runner c.args workspace)).foldl
        (fun a e => if e = 0 then a else e) 0 := by
  unfold runValidationExit
  rw [List.foldl_map]
  congr 1
  funext acc c
  cases exec c.runner c.args workspace with
  | failed => simp [observedCode]
  | ok e => simp [observedCode]

theorem runValidationExit_zero_iff (exec : String → List String → String → RunOutcome)
    (spec : ValidationSpecM) (workspace : String) :
    runValidationExit exec spec workspace = 0 ↔
      ∀ c ∈ spec.commands, exec c.runner c.args workspace = .ok 0 := by
  rw [runValidationExit_step, foldl_keepNonZero_zero]
  constructor
  · rintro ⟨-, h⟩ c hc
    exact (observedCode_zero_iff _).mp (h _ (List.mem_map_of_mem _ hc))
  · intro h
    refine ⟨rfl, ?_⟩
    intro e he
    obtain ⟨c, hc, hfc⟩ := List.mem_map.mp he
    rw [← hfc]
    exact (observedCode_zero_iff _).mpr (h c hc)

/-- The spec's words, for comparison: the worst (numerically greatest,
most severe) exit code observed across all validation commands.
Modelled from the spec: "Accumulate the worst exit code (zero only if
all zero)". -/
def worstExitSpec (exec : String → List String → String → RunOutcome)
    (spec : ValidationSpecM) (workspace : String) : Int :=
  spec.commands.foldl
    (fun acc c => max acc (observedCode (exec c.runner c.args workspace))) 0

/-- A two-command validation spec whose commands exit 5 then 2. -/
def c3spec : ValidationSpecM :=
  ⟨[⟨"python", ["cmd1"], "", 0⟩, ⟨"python", ["cmd2"], "", 0⟩], true, 0⟩

/-- Runner oracle for the C3 counterexample: `cmd1` exits 5, `cmd2`
exits 2. -/
def c3exec : String → List String → String → RunOutcome :=
  fun _ args _ => if args = ["cmd1"] then .ok 5 else .ok 2

/-- C3 counterexample — the accumulated validation exit code is not the
worst (most severe) exit code: with command exits 5 then 2, the code
returns 2, the exit of the last failing command, while the worst is 5. -/
theorem runValidation_not_worst_counterexample :
    runValidationExit c3exec c3spec "/ws" = 2 ∧
    worstExitSpec c3exec c3spec "/ws" = 5 ∧
    runValidationExit c3exec c3spec "/ws" ≠ worstExitSpec c3exec c3spec "/ws" := by
  refine ⟨by decide, by decide, by decide⟩

/-- C3 (amended) — running the validation spec executes every command
with allow_nonzero=true and folds exit codes left to right: the result is
zero iff every command exits zero (vacuously so for an empty command set);
when some command is non-zero the result is the exit code of the last
failing command (runner errors contributing code 1), which need not be
the worst exit code observed. -/
theorem runValidation_accumulation (exec : String → List String → String → RunOutcome)
    (spec : ValidationSpecM) (workspace : String) :
    (runValidationExit exec spec workspace = 0 ↔
      ∀ c ∈ spec.commands, exec c.runner c.args workspace = .ok 0) ∧
    (spec.commands = [] → runValidationExit exec spec workspace = 0) ∧
    runValidationExit exec spec workspace =
      ((spec.commands.map fun c => observedCode (exec c.runner c.args workspace)).filter
        (fun e => e != 0)).getLastD 0 := by
  refine ⟨runValidationExit_zero_iff exec spec workspace, ?_, ?_⟩
  · intro h
    unfold runValidationExit
    rw [h]
    rfl
  · rw [runValidationExit_step, foldl_keepNonZero]

/-- C3 witness: the amended accumulation theorem applied to a concrete
empty spec (vacuous success) with its hypothesis discharged. -/
theorem runValidation_accumulation_witness :
    runValidationExit c3exec ⟨[], true, 0⟩ "/ws" = 0 :=
  (runValidation_accumulation c3exec ⟨[], true, 0⟩ "/ws").2.1 rfl

/- ### The worker loop (engine/worker.go, Executor.runWorker) -/

/-- One row of the `attempts` table (the columns the worker paths read or
write; `diff_stats_json` / `artifacts_json`, always empty in these paths,
are omitted). -/
structure AttemptRow where
  id : Nat
  taskId : Int
  attemptNo : Nat
  status : String
  agentName : String
  agentExitCode : Int
  validationExitCode : Int
  startedAt : Nat
  finishedAt : Option Nat
  summaryJson : String
deriving Repr, DecidableEq

/-- The store state the worker touches: the `tasks` and `attempts` tables,
plus the autoincrement counter for attempt ids. -/
structure EngineState where
  tasks : TaskTable
  attempts : List AttemptRow
  nextAttemptId : Nat
deriving Repr, DecidableEq

/-- `SQLiteStore.CreateAttempt`: insert the record with the next
autoincrement id and return that id. -/
def createAttempt (row : AttemptRow) (st : EngineState) : Nat × EngineState :=
  (st.nextAttemptId,
   { st with
       attempts := st.attempts ++ [{ row with id := st.nextAttemptId }],
       nextAttemptId := st.nextAttemptId + 1 })

/-- `SQLiteStore.FinishAttempt`:
`UPDATE attempts SET status=?, summary_json=?, validation_exit_code=?,
finished_at=? WHERE id=?`. -/
def finishAttempt (attemptId : Nat) (status summaryJson : String)
    (validationExitCode : Int) (now : Nat) (st : EngineState) : EngineState :=
  { st with
      attempts := st.attempts.map fun a =>
        if a.id = attemptId then
          { a with status := status, summaryJson := summaryJson,
                   validationExitCode := validationExitCode,
                   finishedAt := some now }
        else a }

/-- `agent.Request` (`schema_version`, ids, paths, instructions and the
verbatim validation command strings). -/
structure AgentRequestM where
  schemaVersion : Int
  runId : String
  taskId : Int
  taskType : String
  tool : String
  repoPath : String
  workspacePath : String
  allowedPaths : List String
  readOnlyPaths : List String
  instructions : String
  validationCommands : List String
deriving Repr, DecidableEq

/-- `agent.Result`: the structured record an agent prints on stdout. -/
structure AgentResultM where
  schemaVersion : Int
  runId : String
  taskId : Int
  status : String
  summary : String
  filesChanged : List String
deriving Repr, DecidableEq

/-- `joinArgs` of worker.go. -/
def joinArgs (args : List String) : String :=
  String.intercalate " " args

/-- `validationStrings` of worker.go. -/
def validationStrings (spec : ValidationSpecM) : List String :=
  spec.commands.map fun c => joinArgs c.args

/-- The worker's environment: run context plus oracles for every external
effect of one loop iteration (store attempt-insert failure, workspace
preparation, `json.Unmarshal` of the validation blob, agent invocation,
and runner execution). -/
structure WorkerEnv where
  runId : String
  repoPath : String
  artifactRoot : String
  allowedPaths : List String
  agentName : String
  createAttemptFails : Int → Bool
  prepareWorkspace : Int → Except Unit String
  parseValidationSpec : String → Option ValidationSpecM
  agentErr : AgentRequestM → Bool
  agentResult : AgentRequestM → AgentResultM
  exec : String → List String → String → RunOutcome

/-- The agent request built in `Executor.runWorker` step 5. -/
def buildAgentRequest (env : WorkerEnv) (task : TaskRow)
    (workspacePath : String) (spec : ValidationSpecM) : AgentRequestM :=
  { schemaVersion := 1, runId := env.runId, taskId := task.id,
    taskType := task.taskType, tool := task.tool, repoPath := env.repoPath,
    workspacePath := workspacePath, allowedPaths := env.allowedPaths,
    readOnlyPaths := [".git", env.artifactRoot],
    instructions := task.description,
    validationCommands := validationStrings spec }

/-- The body of `Executor.runWorker` after a successful claim, returning
the new store state and whether the loop continues (`true`) or the worker
returns (`false`).  Mirrors the source's control flow: attempt creation,
workspace preparation, validation-spec deserialization, agent invocation
(result discarded, only the error kept), validation run, attempt finish
and task status update. -/
def workerStep (env : WorkerEnv) (now : Nat) (task : TaskRow)
    (st : EngineState) : EngineState × Bool :=
  if env.createAttemptFails task.id then
    ({ st with tasks := (updateTaskStatus task.id "blocked"
         "\x7b\"error\":\"failed to create attempt\"\x7d" now st.tasks) }, false)
  else
    let attempt : AttemptRow :=
      { id := 0, taskId := task.id, attemptNo := 1, status := "running",
        agentName := env.agentName, agentExitCode := 0,
        validationExitCode := 0, startedAt := now, finishedAt := none,
        summaryJson := "" }
    let created := createAttempt attempt st
    let attemptId := created.1
    let st1 := created.2
    match env.prepareWorkspace task.id with
    | .error _ =>
        let st2 := { st1 with tasks := (updateTaskStatus task.id "blocked"
                       "\x7b\"error\":\"failed to prepare workspace\"\x7d" now st1.tasks) }
        (finishAttempt attemptId "failed"
           "\x7b\"error\":\"workspace failure\"\x7d" 1 now st2, false)
    | .ok workspacePath =>
        match env.parseValidationSpec task.validationJson with
        | none =>
            let st2 := { st1 with tasks := (updateTaskStatus task.id "blocked"
                           "\x7b\"error\":\"invalid validation spec\"\x7d" now st1.tasks) }
            (finishAttempt attemptId "failed"
               "\x7b\"error\":\"validation spec failure\"\x7d" 1 now st2, false)
        | some spec =>
            let agentReq := buildAgentRequest env task workspacePath spec
            let _discarded := env.agentResult agentReq
            let agentFailed := env.agentErr agentReq
            let validationExit := runValidationExit env.exec spec workspacePath
            let status := if agentFailed || validationExit != 0 then "failed"
                          else "succeeded"
            let st2 := finishAttempt attemptId status "" validationExit now st1
            (({ st2 with tasks := (updateTaskStatus task.id
                  (if status = "succeeded" then "succeeded" else "blocked")
                  "" now st2.tasks) }), true)

/-- The worker loop: claim, run `workerStep`, and loop while the step
says to continue (fuel-indexed; the checkpoint branch only inserts new
records and is modelled separately). -/
def runWorker (env : WorkerEnv) (workerId : String) :
    Nat → Nat → EngineState → EngineState
  | 0, _, st => st
  | fuel + 1, now, st =>
      match claimNextTask env.runId workerId now st.tasks with
      | (none, _) => st
      | (some task, tasks') =>
          let stepped := workerStep env now task { st with tasks := tasks' }
          if stepped.2 then runWorker env workerId fuel (now + 1) stepped.1
          else stepped.1

/-- Statuses of all attempt rows with a given id (binder-free access for
statements). -/
def attemptStatuses (attempts : List AttemptRow) (attemptId : Nat) : List String :=
  (attempts.filter fun a => a.id == attemptId).map AttemptRow.status

theorem taskStatuses_update (taskId : Int) (status extra : String) (now : Nat)
    (tasks : TaskTable) :
    ∀ s ∈ taskStatuses (updateTaskStatus taskId status extra now tasks) taskId,
      s = status := by
  intro s hs
  unfold taskStatuses updateTaskStatus at hs
  simp only [List.mem_map, List.mem_filter] at hs
  obtain ⟨a, ⟨⟨r, hr, hfr⟩, hid⟩, hsa⟩ := hs
  by_cases hc : (r.id == taskId) = true
  · rw [if_pos hc] at hfr
    rw [← hsa, ← hfr]
  · rw [if_neg hc] at hfr
    subst hfr
    exact absurd hid hc

theorem attemptStatuses_untouched (attempts : List AttemptRow) (nextId : Nat)
    (hfresh : ∀ a ∈ attempts, a.id ≠ nextId) :
    attemptStatuses attempts nextId = [] := by
  unfold attemptStatuses
  have h : attempts.filter (fun a => a.id == nextId) = [] := by
    apply List.filter_eq_nil_iff.mpr
    intro a ha
    simp [hfresh a ha]
  rw [h]
  rfl

theorem attemptStatuses_finish_create (st : EngineState)
    (hfresh : ∀ a ∈ st.attempts, a.id ≠ st.nextAttemptId)
    (row : AttemptRow) (status summary : String) (vexit : Int) (now : Nat)
    (mid : EngineState) (hmid : mid.attempts = (createAttempt row st).2.attempts) :
    attemptStatuses
      (finishAttempt st.nextAttemptId status summary vexit now mid).attempts
      st.nextAttemptId = [status] := by
  unfold finishAttempt attemptStatuses
  simp only
  rw [hmid]
  unfold createAttempt
  simp only
  rw [List.map_append, List.filter_append, List.map_append]
  have h1 : ((st.attempts.map fun a =>
      if a.id = st.nextAttemptId then
        { a with status := status, summaryJson := summary,
                 validationExitCode := vexit, finishedAt := some now }
      else a).filter fun a => a.id == st.nextAttemptId) = [] := by
    apply List.filter_eq_nil_iff.mpr
    intro a ha
    obtain ⟨b, hb, hfb⟩ := List.mem_map.mp ha
    have hne := hfresh b hb
    by_cases hc : b.id = st.nextAttemptId
    · exact absurd hc hne
    · rw [if_neg hc] at hfb
      subst hfb
      simp [hc]
  rw [h1]
  simp

/-- C2 — for every claimed task the attempt and the task end `succeeded`
iff the agent invocation returned no error and every validation command
exited zero; in every other case — agent error, any non-zero validation
exit (Scenario E), a workspace or validation-spec failure — the attempt
is recorded `failed` and the task `blocked` (never `succeeded`; when the
attempt insert itself fails no attempt row exists at all), and the
agent's self-reported result never influences the outcome (the worker
discards it). -/
theorem worker_outcome (env : WorkerEnv) (now : Nat) (task : TaskRow)
    (st : EngineState)
    (hfresh : ∀ a ∈ st.attempts, a.id ≠ st.nextAttemptId) :
    (∀ s ∈ taskStatuses (workerStep env now task st).1.tasks task.id,
        s = "succeeded" ∨ s = "blocked") ∧
    (∀ workspacePath spec,
      env.createAttemptFails task.id = false →
      env.prepareWorkspace task.id = .ok workspacePath →
      env.parseValidationSpec task.validationJson = some spec →
        (attemptStatuses (workerStep env now task st).1.attempts
            st.nextAttemptId = ["succeeded"] ↔
          (env.agentErr (buildAgentRequest env task workspacePath spec) = false ∧
           ∀ c ∈ spec.commands,
             env.exec c.runner c.args workspacePath = .ok 0)) ∧
        (attemptStatuses (workerStep env now task st).1.attempts
            st.nextAttemptId = ["failed"] ↔
          ¬(env.agentErr (buildAgentRequest env task workspacePath spec) = false ∧
            ∀ c ∈ spec.commands,
              env.exec c.runner c.args workspacePath = .ok 0)) ∧
        (∀ s ∈ taskStatuses (workerStep env now task st).1.tasks task.id,
          (s = "succeeded" ↔
            (env.agentErr (buildAgentRequest env task workspacePath spec) = false ∧
             ∀ c ∈ spec.commands,
               env.exec c.runner c.args workspacePath = .ok 0)))) ∧
    (attemptStatuses (workerStep env now task st).1.attempts
        st.nextAttemptId = ["succeeded"] →
      ∃ workspacePath spec,
        env.createAttemptFails task.id = false ∧
        env.prepareWorkspace task.id = .ok workspacePath ∧
        env.parseValidationSpec task.validationJson = some spec ∧
        env.agentErr (buildAgentRequest env task workspacePath spec) = false ∧
        ∀ c ∈ spec.commands,
          env.exec c.runner c.args workspacePath = .ok 0) ∧
    ((env.createAttemptFails task.id = true →
        attemptStatuses (workerStep env now task st).1.attempts
          st.nextAttemptId = []) ∧
     (env.createAttemptFails task.id = false →
      env.prepareWorkspace task.id = .error () →
        attemptStatuses (workerStep env now task st).1.attempts
          st.nextAttemptId = ["failed"]) ∧
     (∀ workspacePath,
      env.createAttemptFails task.id = false →
      env.prepareWorkspace task.id = .ok workspacePath →
      env.parseValidationSpec task.validationJson = none →
        attemptStatuses (workerStep env now task st).1.attempts
          st.nextAttemptId = ["failed"])) ∧
    (∀ g, workerStep { env with agentResult := g } now task st =
      workerStep env now task st) := by
  have hAgentOfAll : ∀ (ws : String) (spec : ValidationSpecM),
      (∀ c ∈ spec.commands, env.exec c.runner c.args ws = .ok 0) →
      runValidationExit env.exec spec ws = 0 :=
    fun ws spec hall => (runValidationExit_zero_iff env.exec spec ws).mpr hall
  refine ⟨?_, ?_, ?_, ⟨?_, ?_, ?_⟩, fun g => rfl⟩
  · intro s hs
    unfold workerStep at hs
    by_cases hcf : env.createAttemptFails task.id
    · rw [if_pos hcf] at hs
      exact Or.inr (taskStatuses_update _ _ _ _ _ s hs)
    · rw [if_neg hcf] at hs
      cases hprep : env.prepareWorkspace task.id with
      | error e =>
          rw [hprep] at hs
          exact Or.inr (taskStatuses_update _ _ _ _ _ s hs)
      | ok ws =>
          rw [hprep] at hs
          cases hparse : env.parseValidationSpec task.validationJson with
          | none =>
              rw [hparse] at hs
              exact Or.inr (taskStatuses_update _ _ _ _ _ s hs)
          | some spec =>
              rw [hparse] at hs
              have hval := taskStatuses_update task.id _ "" now _ s hs
              by_cases hcond :
                (env.agentErr (buildAgentRequest env task ws spec) ||
                  runValidationExit env.exec spec ws != 0) = true
              · rw [if_pos hcond] at hval
                simp at hval
                exact Or.inr hval
              · rw [if_neg hcond] at hval
                simp at hval
                exact Or.inl hval
  · intro ws spec hcf hprep hparse
    have hcf' : ¬ (env.createAttemptFails task.id = true) := by simp [hcf]
    have heq : attemptStatuses (workerStep env now task st).1.attempts
        st.nextAttemptId =
        [if (env.agentErr (buildAgentRequest env task ws spec) ||
            runValidationExit env.exec spec ws != 0) = true then "failed"
         else "succeeded"] := by
      unfold workerStep
      rw [if_neg hcf', hprep, hparse]
      exact attemptStatuses_finish_create st hfresh _ _ "" _ now _ rfl
    refine ⟨?_, ?_, ?_⟩
    · rw [heq]
      by_cases hcond :
        (env.agentErr (buildAgentRequest env task ws spec) ||
          runValidationExit env.exec spec ws != 0) = true
      · rw [if_pos hcond]
        constructor
        · intro h; simp at h
        · rintro ⟨hag, hall⟩
          exfalso
          have hV := hAgentOfAll ws spec hall
          rw [hag, hV] at hcond
          simp at hcond
      · rw [if_neg hcond]
        refine ⟨fun _ => ?_, fun _ => rfl⟩
        have hA : env.agentErr (buildAgentRequest env task ws spec) = false := by
          by_contra hA'
          rw [Bool.not_eq_false] at hA'
          exact hcond (by rw [hA']; simp)
        have hV : runValidationExit env.exec spec ws = 0 := by
          by_contra hV'
          exact hcond (by simp [hV'])
        exact ⟨hA, (runValidationExit_zero_iff env.exec spec ws).mp hV⟩
    · rw [heq]
      by_cases hcond :
        (env.agentErr (buildAgentRequest env task ws spec) ||
          runValidationExit env.exec spec ws != 0) = true
      · rw [if_pos hcond]
        refine ⟨fun _ => ?_, fun _ => rfl⟩
        rintro ⟨hag, hall⟩
        have hV := hAgentOfAll ws spec hall
        rw [hag, hV] at hcond
        simp at hcond
      · rw [if_neg hcond]
        constructor
        · intro h; simp at h
        · intro hn
          exfalso
          apply hn
          have hA : env.agentErr (buildAgentRequest env task ws spec) = false := by
            by_contra hA'
            rw [Bool.not_eq_false] at hA'
            exact hcond (by rw [hA']; simp)
          have hV : runValidationExit env.exec spec ws = 0 := by
            by_contra hV'
            exact hcond (by simp [hV'])
          exact ⟨hA, (runValidationExit_zero_iff env.exec spec ws).mp hV⟩
    · intro s hs
      unfold workerStep at hs
      rw [if_neg hcf', hprep, hparse] at hs
      have hval := taskStatuses_update task.id _ "" now _ s hs
      by_cases hcond :
        (env.agentErr (buildAgentRequest env task ws spec) ||
          runValidationExit env.exec spec ws != 0) = true
      · rw [if_pos hcond] at hval
        simp at hval
        rw [hval]
        constructor
        · intro h; simp at h
        · rintro ⟨hag, hall⟩
          exfalso
          have hV := hAgentOfAll ws spec hall
          rw [hag, hV] at hcond
          simp at hcond
      · rw [if_neg hcond] at hval
        simp at hval
        rw [hval]
        refine ⟨fun _ => ?_, fun _ => rfl⟩
        have hA : env.agentErr (buildAgentRequest env task ws spec) = false := by
          by_contra hA'
          rw [Bool.not_eq_false] at hA'
          exact hcond (by rw [hA']; simp)
        have hV : runValidationExit env.exec spec ws = 0 := by
          by_contra hV'
          exact hcond (by simp [hV'])
        exact ⟨hA, (runValidationExit_zero_iff env.exec spec ws).mp hV⟩
  · intro hsucc
    by_cases hcf : env.createAttemptFails task.id
    · exfalso
      have heq : attemptStatuses (workerStep env now task st).1.attempts
          st.nextAttemptId = [] := by
        unfold workerStep
        rw [if_pos hcf]
        exact attemptStatuses_untouched st.attempts st.nextAttemptId hfresh
      rw [heq] at hsucc
      simp at hsucc
    · cases hprep : env.prepareWorkspace task.id with
      | error e =>
          exfalso
          have heq : attemptStatuses (workerStep env now task st).1.attempts
              st.nextAttemptId = ["failed"] := by
            unfold workerStep
            rw [if_neg hcf, hprep]
            exact attemptStatuses_finish_create st hfresh _ _ _ _ now _ rfl
          rw [heq] at hsucc
          simp at hsucc
      | ok ws =>
          cases hparse : env.parseValidationSpec task.validationJson with
          | none =>
              exfalso
              have heq : attemptStatuses (workerStep env now task st).1.attempts
                  st.nextAttemptId = ["failed"] := by
                unfold workerStep
                rw [if_neg hcf, hprep, hparse]
                exact attemptStatuses_finish_create st hfresh _ _ _ _ now _ rfl
              rw [heq] at hsucc
              simp at hsucc
          | some spec =>
              have heq : attemptStatuses (workerStep env now task st).1.attempts
                  st.nextAttemptId =
                  [if (env.agentErr (buildAgentRequest env task ws spec) ||
                      runValidationExit env.exec spec ws != 0) = true then "failed"
                   else "succeeded"] := by
                unfold workerStep
                rw [if_neg hcf, hprep, hparse]
                exact attemptStatuses_finish_create st hfresh _ _ "" _ now _ rfl
              rw [heq] at hsucc
              by_cases hcond :
                (env.agentErr (buildAgentRequest env task ws spec) ||
                  runValidationExit env.exec spec ws != 0) = true
              · rw [if_pos hcond] at hsucc
                simp at hsucc
              · have hA : env.agentErr (buildAgentRequest env task ws spec) = false := by
                  by_contra hA'
                  rw [Bool.not_eq_false] at hA'
                  exact hcond (by rw [hA']; simp)
                have hV : runValidationExit env.exec spec ws = 0 := by
                  by_contra hV'
                  exact hcond (by simp [hV'])
                exact ⟨ws, spec, by simpa using hcf, rfl, rfl, hA,
                  (runValidationExit_zero_iff env.exec spec ws).mp hV⟩
  · intro hcf
    unfold workerStep
    rw [if_pos hcf]
    exact attemptStatuses_untouched st.attempts st.nextAttemptId hfresh
  · intro hcf hprep
    have hcf' : ¬ (env.createAttemptFails task.id = true) := by simp [hcf]
    unfold workerStep
    rw [if_neg hcf', hprep]
    exact attemptStatuses_finish_create st hfresh _ _ _ _ now _ rfl
  · intro ws hcf hprep hparse
    have hcf' : ¬ (env.createAttemptFails task.id = true) := by simp [hcf]
    unfold workerStep
    rw [if_neg hcf', hprep, hparse]
    exact attemptStatuses_finish_create st hfresh _ _ _ _ now _ rfl

/-- Agent-result oracle used by the concrete worker fixtures: echo the
request's identifiers with a success status (the no-op local agent's
shape). -/
def echoAgentResult : AgentRequestM → AgentResultM :=
  fun req => ⟨1, req.runId, req.taskId, "success", "", []⟩

/-- A queued fix task with priority 100. -/
def fixTask1 : TaskRow :=
  ⟨1, "r", "pytest", "fix", 100, "queued", "f1", "t1", "d1", "tg", "vj",
   "rp", "", "", none, none, 0, 0⟩

/-- A queued fix task with priority 50. -/
def fixTask2 : TaskRow :=
  ⟨2, "r", "pytest", "fix", 50, "queued", "f2", "t2", "d2", "tg", "vj",
   "rp", "", "", none, none, 1, 1⟩

/-- Worker environment in which every workspace preparation fails. -/
def wsFailEnv : WorkerEnv :=
  { runId := "r", repoPath := "/repo", artifactRoot := "/artifacts",
    allowedPaths := ["src", "tests"], agentName := "local",
    createAttemptFails := fun _ => false,
    prepareWorkspace := fun _ => .error (),
    parseValidationSpec := fun _ => some ⟨[], true, 0⟩,
    agentErr := fun _ => false,
    agentResult := echoAgentResult,
    exec := fun _ _ _ => .ok 0 }

/-- Worker environment in which everything succeeds. -/
def happyEnv : WorkerEnv :=
  { wsFailEnv with prepareWorkspace := fun _ => .ok "/ws" }

/-- A store holding the two queued tasks and no attempts. -/
def twoTaskState : EngineState := ⟨[fixTask1, fixTask2], [], 1⟩

/-- C4 (amended) — after an attempt-creation, workspace, or
validation-spec error the task is marked `blocked` and, when an attempt
exists, the attempt is finished `failed` (after an attempt-creation
failure no attempt row exists at all), but the worker then returns,
stopping its claim loop, instead of continuing to the next task; only an
agent invocation error is recovered locally, with the worker finishing
the attempt `failed`, blocking the task, and continuing the loop. -/
theorem worker_error_paths (env : WorkerEnv) (now : Nat) (task : TaskRow)
    (st : EngineState)
    (hfresh : ∀ a ∈ st.attempts, a.id ≠ st.nextAttemptId) :
    (env.createAttemptFails task.id = false →
      env.prepareWorkspace task.id = .error () →
        (workerStep env now task st).2 = false ∧
        attemptStatuses (workerStep env now task st).1.attempts
          st.nextAttemptId = ["failed"] ∧
        ∀ s ∈ taskStatuses (workerStep env now task st).1.tasks task.id,
          s = "blocked") ∧
    (∀ ws, env.createAttemptFails task.id = false →
      env.prepareWorkspace task.id = .ok ws →
      env.parseValidationSpec task.validationJson = none →
        (workerStep env now task st).2 = false ∧
        attemptStatuses (workerStep env now task st).1.attempts
          st.nextAttemptId = ["failed"] ∧
        ∀ s ∈ taskStatuses (workerStep env now task st).1.tasks task.id,
          s = "blocked") ∧
    (∀ ws spec, env.createAttemptFails task.id = false →
      env.prepareWorkspace task.id = .ok ws →
      env.parseValidationSpec task.validationJson = some spec →
      env.agentErr (buildAgentRequest env task ws spec) = true →
        (workerStep env now task st).2 = true ∧
        attemptStatuses (workerStep env now task st).1.attempts
          st.nextAttemptId = ["failed"] ∧
        ∀ s ∈ taskStatuses (workerStep env now task st).1.tasks task.id,
          s = "blocked") ∧
    (env.createAttemptFails task.id = true →
        (workerStep env now task st).2 = false ∧
        attemptStatuses (workerStep env now task st).1.attempts
          st.nextAttemptId = [] ∧
        ∀ s ∈ taskStatuses (workerStep env now task st).1.tasks task.id,
          s = "blocked") := by
  refine ⟨?_, ?_, ?_, ?_⟩
  · intro hcf hprep
    have hcf' : ¬ (env.createAttemptFails task.id = true) := by simp [hcf]
    refine ⟨?_, ?_, ?_⟩
    · unfold workerStep
      rw [if_neg hcf', hprep]
    · unfold workerStep
      rw [if_neg hcf', hprep]
      exact attemptStatuses_finish_create st hfresh _ _ _ _ now _ rfl
    · intro s hs
      unfold workerStep at hs
      rw [if_neg hcf', hprep] at hs
      exact taskStatuses_update _ _ _ _ _ s hs
  · intro ws hcf hprep hparse
    have hcf' : ¬ (env.createAttemptFails task.id = true) := by simp [hcf]
    refine ⟨?_, ?_, ?_⟩
    · unfold workerStep
      rw [if_neg hcf', hprep, hparse]
    · unfold workerStep
      rw [if_neg hcf', hprep, hparse]
      exact attemptStatuses_finish_create st hfresh _ _ _ _ now _ rfl
    · intro s hs
      unfold workerStep at hs
      rw [if_neg hcf', hprep, hparse] at hs
      exact taskStatuses_update _ _ _ _ _ s hs
  · intro ws spec hcf hprep hparse hag
    have hcf' : ¬ (env.createAttemptFails task.id = true) := by simp [hcf]
    have hcond : (env.agentErr (buildAgentRequest env task ws spec) ||
        runValidationExit env.exec spec ws != 0) = true := by
      rw [hag]; simp
    refine ⟨?_, ?_, ?_⟩
    · unfold workerStep
      rw [if_neg hcf', hprep, hparse]
    · have heq : attemptStatuses (workerStep env now task st).1.attempts
          st.nextAttemptId =
          [if (env.agentErr (buildAgentRequest env task ws spec) ||
              runValidationExit env.exec spec ws != 0) = true then "failed"
           else "succeeded"] := by
        unfold workerStep
        rw [if_neg hcf', hprep, hparse]
        exact attemptStatuses_finish_create st hfresh _ _ "" _ now _ rfl
      rw [heq, if_pos hcond]
    · intro s hs
      unfold workerStep at hs
      rw [if_neg hcf', hprep, hparse] at hs
      have hval := taskStatuses_update task.id _ "" now _ s hs
      rw [if_pos hcond] at hval
      simpa using hval
  · intro hcf
    refine ⟨?_, ?_, ?_⟩
    · unfold workerStep
      rw [if_pos hcf]
    · unfold workerStep
      rw [if_pos hcf]
      exact attemptStatuses_untouched st.attempts st.nextAttemptId hfresh
    · intro s hs
      unfold workerStep at hs
      rw [if_pos hcf] at hs
      exact taskStatuses_update _ _ _ _ _ s hs

/-- C4 witness: the amended error-path theorem applied to the concrete
workspace-failure environment, with every hypothesis discharged. -/
theorem worker_error_paths_witness :
    (workerStep wsFailEnv 10 fixTask1 twoTaskState).2 = false ∧
    attemptStatuses (workerStep wsFailEnv 10 fixTask1 twoTaskState).1.attempts
      1 = ["failed"] := by
  have h := (worker_error_paths wsFailEnv 10 fixTask1 twoTaskState
    (by intro a ha; simp [twoTaskState] at ha)).1 rfl rfl
  exact ⟨h.1, h.2.1⟩

/-- C4 counterexample — the worker does not continue to the next task
after a workspace error: with two queued tasks and workspace preparation
failing, the loop blocks the first task, fails its attempt, and returns
without ever claiming the second task, which is still `queued` when the
loop ends (the claim says the worker would continue and claim it). -/
theorem worker_stops_counterexample :
    taskStatuses (runWorker wsFailEnv "w" 5 10 twoTaskState).tasks 2 = ["queued"] ∧
    taskStatuses (runWorker wsFailEnv "w" 5 10 twoTaskState).tasks 1 = ["blocked"] ∧
    attemptStatuses (runWorker wsFailEnv "w" 5 10 twoTaskState).attempts 1 = ["failed"] := by
  refine ⟨by decide, by decide, by decide⟩

/-- C2 witness: the outcome theorem applied to the concrete all-success
environment, with every hypothesis discharged; the sole attempt ends
`succeeded`. -/
theorem worker_outcome_witness :
    attemptStatuses (workerStep happyEnv 10 fixTask1 twoTaskState).1.attempts
      1 = ["succeeded"] := by
  have h := ((worker_outcome happyEnv 10 fixTask1 twoTaskState
    (by intro a ha; simp [twoTaskState] at ha)).2.1 "/ws" ⟨[], true, 0⟩
    rfl rfl rfl).1
  exact h.mpr ⟨rfl, by simp⟩

/- ### Agent adapters (internal/agent: codex.go, command adapter) -/

/-- Outcome of running the adapter's child process and decoding its
stdout: the subprocess failed, the JSON decode failed, or a result record
was decoded. -/
inductive SubprocResult where
  | execFailed
  | decodeFailed
  | decoded (r : AgentResultM)
deriving Repr, DecidableEq

/-- `strings.Fields`, modelled on single spaces (the adapters only split
a command line from an environment variable). -/
def stringFields (s : String) : List String :=
  (s.splitOn " ").filter fun w => w ≠ ""

/-- `defaultCodexCommand` of codex.go: the `ATQOS_CODEX_CMD` value split
into fields, or `["codex"]` when the variable is empty. -/
def defaultCodexCommand (envCodexCmd : String) : List String :=
  if envCodexCmd = "" then ["codex"] else stringFields envCodexCmd

/-- Command resolution at the top of `CodexCLIAdapter.Invoke`. -/
def resolveCodexCommand (command : List String) (envCodexCmd : String) :
    List String :=
  if command = [] then defaultCodexCommand envCodexCmd else command

/-- `CodexCLIAdapter.Invoke`: run the configured command, decode one
result record from stdout, and reject it unless the schema version
round-trips and the run id and task id equal the request's. -/
def codexInvoke (command : List String) (envCodexCmd : String)
    (req : AgentRequestM) (sub : SubprocResult) : Except String AgentResultM :=
  if resolveCodexCommand command envCodexCmd = [] then
    .error "codex command not configured"
  else
    match sub with
    | .execFailed => .error "codex command failed"
    | .decodeFailed => .error "decode codex result"
    | .decoded r =>
        if r.schemaVersion ≠ req.schemaVersion then
          .error "codex result schema mismatch"
        else if r.runId ≠ req.runId ∨ r.taskId ≠ req.taskId then
          .error "codex result does not match request"
        else .ok r

/-- `CommandAdapter.Invoke`: run the configured command and decode one
result record from stdout.  The decoded record is returned as is — no
schema-version, run-id or task-id check is performed. -/
def commandAdapterInvoke (command : List String) (req : AgentRequestM)
    (sub : SubprocResult) : Except String AgentResultM :=
  if command = [] then .error "agent command not configured"
  else
    match sub with
    | .execFailed => .error "agent command failed"
    | .decodeFailed => .error "decode agent result"
    | .decoded r => .ok r

theorem codexInvoke_decoded (command : List String) (envCodexCmd : String)
    (req : AgentRequestM) (r : AgentResultM)
    (hcmd : resolveCodexCommand command envCodexCmd ≠ []) :
    codexInvoke command envCodexCmd req (.decoded r) =
      if r.schemaVersion ≠ req.schemaVersion then
        .error "codex result schema mismatch"
      else if r.runId ≠ req.runId ∨ r.taskId ≠ req.taskId then
        .error "codex result does not match request"
      else .ok r := by
  unfold codexInvoke
  rw [if_neg hcmd]

/-- An agent request with run id `run-a`. -/
def reqRunA : AgentRequestM :=
  ⟨1, "run-a", 1, "fix", "pytest", "/repo", "/ws", ["src"], [".git"], "", []⟩

/-- A decoded agent result whose run id `run-b` differs from the
request's. -/
def resRunB : AgentResultM := ⟨1, "run-b", 1, "success", "", []⟩

/-- C5 counterexample — not every agent adapter rejects a mismatched
result: the generic command adapter returns a decoded result whose run id
differs from the request's, with no error. -/
theorem commandAdapter_no_check_counterexample :
    commandAdapterInvoke ["agent"] reqRunA (.decoded resRunB) = .ok resRunB ∧
    resRunB.runId ≠ reqRunA.runId := by
  refine ⟨rfl, by decide⟩

/-- C5 (amended) — the Codex CLI adapter rejects any decoded result whose
schema version does not round-trip equal or whose run id or task id
differ from the request's, and only returns results that pass all three
checks; the generic command adapter performs none of these checks and
returns the decoded result unchanged. -/
theorem agent_result_checks (command : List String) (envCodexCmd : String)
    (req : AgentRequestM) (r : AgentResultM) :
    (∀ r', codexInvoke command envCodexCmd req (.decoded r) = .ok r' →
      r' = r ∧ r.schemaVersion = req.schemaVersion ∧
      r.runId = req.runId ∧ r.taskId = req.taskId) ∧
    ((r.schemaVersion ≠ req.schemaVersion ∨ r.runId ≠ req.runId ∨
        r.taskId ≠ req.taskId) →
      ∃ e, codexInvoke command envCodexCmd req (.decoded r) = .error e) ∧
    (command ≠ [] →
      commandAdapterInvoke command req (.decoded r) = .ok r) := by
  refine ⟨?_, ?_, ?_⟩
  · intro r' h
    by_cases hcmd : resolveCodexCommand command envCodexCmd = []
    · unfold codexInvoke at h
      rw [if_pos hcmd] at h
      simp at h
    · rw [codexInvoke_decoded command envCodexCmd req r hcmd] at h
      by_cases hsv : r.schemaVersion = req.schemaVersion
      · rw [if_neg (by simp [hsv])] at h
        by_cases hid : r.runId = req.runId ∧ r.taskId = req.taskId
        · rw [if_neg (by simp [hid.1, hid.2])] at h
          simp at h
          exact ⟨h.symm, hsv, hid.1, hid.2⟩
        · rw [if_pos (by tauto)] at h
          simp at h
      · rw [if_pos hsv] at h
        simp at h
  · intro hmis
    by_cases hcmd : resolveCodexCommand command envCodexCmd = []
    · exact ⟨"codex command not configured", by unfold codexInvoke; rw [if_pos hcmd]⟩
    · rw [codexInvoke_decoded command envCodexCmd req r hcmd]
      by_cases hsv : r.schemaVersion = req.schemaVersion
      · rw [if_neg (by simp [hsv])]
        have hid : r.runId ≠ req.runId ∨ r.taskId ≠ req.taskId := by tauto
        rw [if_pos hid]
        exact ⟨_, rfl⟩
      · rw [if_pos hsv]
        exact ⟨_, rfl⟩
  · intro hcmd
    unfold commandAdapterInvoke
    rw [if_neg hcmd]

/-- C5 witness: the codex adapter applied to the mismatched concrete
result is an error. -/
theorem agent_result_checks_witness :
    ∃ e, codexInvoke ["codex"] "" reqRunA (.decoded resRunB) = .error e :=
  (agent_result_checks ["codex"] "" reqRunA resRunB).2.1
    (Or.inr (Or.inl (by decide)))

/- ### The generic command runner (internal/runner/runner.go) -/

/-- What `exec.Cmd.Run` came back with: a clean zero exit (`nil` error),
an `exec.ExitError` with its exit code, or any other (process-launch)
error. -/
inductive ProcOutcome where
  | success
  | exited (code : Int)
  | launchFailed
deriving Repr, DecidableEq

/-- The `exitCode` helper of runner.go: 0 for a nil error, the
`ExitError`'s code, and 1 for any other error. -/
def procExitCode : ProcOutcome → Int
  | .success => 0
  | .exited c => c
  | .launchFailed => 1

/-- Whether `exec.Cmd.Run` returned a non-nil error. -/
def procErr : ProcOutcome → Bool
  | .success => false
  | .exited _ => true
  | .launchFailed => true

/-- `runner.Command` (the environment overlay, irrelevant to the embedded
control flow, is omitted). -/
structure RunnerCommand where
  args : List String
  cwd : String
  timeoutSeconds : Int
  allowNonZero : Bool
  stdoutPath : String
  stderrPath : String
  combinedPath : String
deriving Repr, DecidableEq

/-- Why `GenericRunner.Run` returned an error. -/
inductive RunFailure where
  | argsRequired
  | createFileFailed (path : String)
  | commandFailed
deriving Repr, DecidableEq

/-- `runner.ExecResult` (timestamps and duration, wall-clock data, are
omitted). -/
structure ExecResultM where
  exitCode : Int
  stdoutPath : String
  stderrPath : String
  combinedPath : String
deriving Repr, DecidableEq

/-- Capture-path defaulting of `GenericRunner.Run`: an empty configured
path falls back to `filepath.Join(artifactRoot, leaf)`. -/
def defaultedPath (configured artifactRoot leaf : String) : String :=
  if configured = "" then artifactRoot ++ "/" ++ leaf else configured

/-- `GenericRunner.Run`: reject empty argv, create the capture files
(`createFails` is the filesystem oracle), run the process (`proc` is its
outcome), and fail on a non-nil process error only when `AllowNonZero` is
unset and the computed exit code is non-zero. -/
def genericRun (artifactRoot : String) (cmd : RunnerCommand)
    (createFails : String → Bool) (proc : ProcOutcome) :
    Except RunFailure ExecResultM :=
  if cmd.args = [] then .error .argsRequired
  else if createFails (defaultedPath cmd.stdoutPath artifactRoot "stdout.log") = true then
    .error (.createFileFailed (defaultedPath cmd.stdoutPath artifactRoot "stdout.log"))
  else if createFails (defaultedPath cmd.stderrPath artifactRoot "stderr.log") = true then
    .error (.createFileFailed (defaultedPath cmd.stderrPath artifactRoot "stderr.log"))
  else if cmd.combinedPath ≠ "" ∧ createFails cmd.combinedPath = true then
    .error (.createFileFailed cmd.combinedPath)
  else if procErr proc = true ∧ cmd.allowNonZero = false ∧ procExitCode proc ≠ 0 then
    .error .commandFailed
  else
    .ok { exitCode := procExitCode proc,
          stdoutPath := defaultedPath cmd.stdoutPath artifactRoot "stdout.log",
          stderrPath := defaultedPath cmd.stderrPath artifactRoot "stderr.log",
          combinedPath := cmd.combinedPath }

/-- C7 — `Run` fails only for empty argv, capture-file IO errors, or a
non-nil process error whose exit code is non-zero while `allow_nonzero`
is unset; with `allow_nonzero` set a non-zero exit is returned as a
result, not an error, and with it unset a non-zero exit is an error. -/
theorem genericRun_spec (artifactRoot : String) (cmd : RunnerCommand)
    (createFails : String → Bool) (proc : ProcOutcome) :
    ((∃ e, genericRun artifactRoot cmd createFails proc = .error e) ↔
      (cmd.args = [] ∨
       createFails (defaultedPath cmd.stdoutPath artifactRoot "stdout.log") = true ∨
       createFails (defaultedPath cmd.stderrPath artifactRoot "stderr.log") = true ∨
       (cmd.combinedPath ≠ "" ∧ createFails cmd.combinedPath = true) ∨
       (procErr proc = true ∧ cmd.allowNonZero = false ∧ procExitCode proc ≠ 0))) ∧
    (cmd.allowNonZero = true → cmd.args ≠ [] →
      createFails (defaultedPath cmd.stdoutPath artifactRoot "stdout.log") = false →
      createFails (defaultedPath cmd.stderrPath artifactRoot "stderr.log") = false →
      ¬(cmd.combinedPath ≠ "" ∧ createFails cmd.combinedPath = true) →
      ∀ c, proc = .exited c →
        genericRun artifactRoot cmd createFails proc =
          .ok { exitCode := c,
                stdoutPath := defaultedPath cmd.stdoutPath artifactRoot "stdout.log",
                stderrPath := defaultedPath cmd.stderrPath artifactRoot "stderr.log",
                combinedPath := cmd.combinedPath }) ∧
    (cmd.allowNonZero = false → ∀ c, proc = .exited c → c ≠ 0 →
      cmd.args ≠ [] →
      createFails (defaultedPath cmd.stdoutPath artifactRoot "stdout.log") = false →
      createFails (defaultedPath cmd.stderrPath artifactRoot "stderr.log") = false →
      ¬(cmd.combinedPath ≠ "" ∧ createFails cmd.combinedPath = true) →
      genericRun artifactRoot cmd createFails proc = .error .commandFailed) := by
  refine ⟨?_, ?_, ?_⟩
  · unfold genericRun
    split_ifs with h1 h2 h3 h4 h5
    · simp [h1]
    · simp [h1, h2]
    · simp [h1, h2, h3]
    · simp [h1, h2, h3, h4]
    · simp [h1, h2, h3, h4, h5]
    · simp [h1, h2, h3, h4, h5]
  · intro hallow hargs hso hse hcomb c hproc
    subst hproc
    unfold genericRun
    rw [if_neg hargs, if_neg (by simp [hso]), if_neg (by simp [hse]),
        if_neg hcomb, if_neg (by simp [hallow])]
    rfl
  · intro hallow c hproc hc hargs hso hse hcomb
    subst hproc
    unfold genericRun
    rw [if_neg hargs, if_neg (by simp [hso]), if_neg (by simp [hse]),
        if_neg hcomb, if_pos ⟨rfl, hallow, by simpa using hc⟩]

/-- C7 witness: the runner theorem applied to a concrete permissive
command whose process exits 7; every hypothesis is discharged. -/
theorem genericRun_spec_witness :
    genericRun "/a" ⟨["x"], "", 0, true, "", "", ""⟩ (fun _ => false)
        (.exited 7) =
      .ok ⟨7, "/a" ++ "/" ++ "stdout.log", "/a" ++ "/" ++ "stderr.log", ""⟩ :=
  (genericRun_spec "/a" ⟨["x"], "", 0, true, "", "", ""⟩ (fun _ => false)
    (.exited 7)).2.1 rfl (by simp) rfl rfl (by simp) 7 rfl

/- ### Environment probe (internal/repo/adapter.go) -/

/-- `repo.Profile`. -/
structure RepoProfile where
  repoPath : String
  pythonManager : String
  hasUVLock : Bool
  hasPoetryLock : Bool
  venvPath : String
deriving Repr, DecidableEq

/-- `repo.PythonInvocation`. -/
structure PythonInvocation where
  pythonPath : String
  tool : String
  prefixArgs : List String
deriving Repr, DecidableEq

/-- `filepath.Join` for a clean directory and a relative component. -/
def joinPath (a b : String) : String := a ++ "/" ++ b

/-- `Adapter.Detect`: probe `uv.lock`, `poetry.lock` and
`.venv/bin/python` (the `fileExists` oracle is `os.Stat` succeeding on a
regular file), with the source's precedence for the manager label. -/
def detect (fileExists : String → Bool) (repoPath : String) : RepoProfile :=
  let p0 : RepoProfile := ⟨repoPath, "", false, false, ""⟩
  let p1 := if fileExists (joinPath repoPath "uv.lock") = true then
      { p0 with hasUVLock := true, pythonManager := "uv" }
    else p0
  let p2 := if fileExists (joinPath repoPath "poetry.lock") = true then
      { p1 with hasPoetryLock := true,
                pythonManager := if p1.pythonManager = "" then "poetry"
                                 else p1.pythonManager }
    else p1
  let p3 := if fileExists (joinPath repoPath ".venv/bin/python") = true then
      { p2 with venvPath := joinPath repoPath ".venv/bin/python",
                pythonManager := if p2.pythonManager = "" then "venv"
                                 else p2.pythonManager }
    else p2
  if p3.pythonManager = "" then { p3 with pythonManager := "system" } else p3

/-- `Adapter.ResolvePython`: an explicit venv wins the interpreter path;
otherwise a uv lock selects tool-runner mode; otherwise the bare name
`python`. -/
def resolvePython (p : RepoProfile) : PythonInvocation :=
  if p.venvPath ≠ "" then ⟨p.venvPath, "", []⟩
  else if p.hasUVLock then ⟨"", "uv", ["run", "python"]⟩
  else ⟨"python", "", []⟩

/-- `filepath.IsAbs` on Unix: the path begins with a slash. -/
def isAbsolutePath (s : String) : Bool := s.data.headD ' ' == '/'

theorem isAbsolutePath_append (a b : String)
    (h : isAbsolutePath a = true) : isAbsolutePath (a ++ b) = true := by
  unfold isAbsolutePath at *
  have hd : (a ++ b).data = a.data ++ b.data := rfl
  rw [hd]
  cases ha : a.data with
  | nil => rw [ha] at h; simp at h
  | cons c rest =>
      rw [ha] at h
      simp at h ⊢
      exact h

theorem joinPath_ne_empty (a b : String) : joinPath a b ≠ "" := by
  unfold joinPath
  intro h
  have hd : (a ++ "/" ++ b).data = a.data ++ ['/'] ++ b.data := rfl
  rw [h] at hd
  simp at hd

theorem detect_venvPath (fileExists : String → Bool) (repoPath : String) :
    (detect fileExists repoPath).venvPath =
      if fileExists (joinPath repoPath ".venv/bin/python") = true then
        joinPath repoPath ".venv/bin/python"
      else "" := by
  unfold detect
  by_cases huv : fileExists (joinPath repoPath "uv.lock") = true <;>
    by_cases hpo : fileExists (joinPath repoPath "poetry.lock") = true <;>
      by_cases hvenv : fileExists (joinPath repoPath ".venv/bin/python") = true <;>
        simp [huv, hpo, hvenv]

theorem detect_hasUVLock (fileExists : String → Bool) (repoPath : String) :
    (detect fileExists repoPath).hasUVLock =
      fileExists (joinPath repoPath "uv.lock") := by
  unfold detect
  by_cases huv : fileExists (joinPath repoPath "uv.lock") = true <;>
    by_cases hpo : fileExists (joinPath repoPath "poetry.lock") = true <;>
      by_cases hvenv : fileExists (joinPath repoPath ".venv/bin/python") = true <;>
        simp [huv, hpo, hvenv]

theorem detect_manager_uv (fileExists : String → Bool) (repoPath : String)
    (h : fileExists (joinPath repoPath "uv.lock") = true) :
    (detect fileExists repoPath).pythonManager = "uv" := by
  unfold detect
  by_cases hpo : fileExists (joinPath repoPath "poetry.lock") = true <;>
    by_cases hvenv : fileExists (joinPath repoPath ".venv/bin/python") = true <;>
      simp [h, hpo, hvenv]

/-- C9 counterexample — `resolve_python` does not always return one of
the two claimed shapes: on a repository with no uv lock and no venv, the
fallback invocation carries the bare, non-absolute interpreter name
`python` (not an absolute path) and no wrapping tool. -/
theorem resolve_python_shape_counterexample :
    resolvePython (detect (fun _ => false) "/repo") = ⟨"python", "", []⟩ ∧
    isAbsolutePath "python" = false ∧
    ¬((isAbsolutePath (resolvePython (detect (fun _ => false) "/repo")).pythonPath = true ∧
       (resolvePython (detect (fun _ => false) "/repo")).prefixArgs = []) ∨
      (resolvePython (detect (fun _ => false) "/repo")).tool ≠ "") := by
  refine ⟨by decide, by decide, by decide⟩

/-- C9 (amended) — `resolve_python` returns one of two shapes:
interpreter mode (an interpreter path and an empty prefix — absolute when
it comes from a detected venv under an absolute repo path, but the bare
name `python` in the system fallback) or tool-runner mode (`uv` plus
prefix `["run", "python"]`); with both a uv lock and a venv present the
manager label is `uv` while the invocation is interpreter mode on the
venv path, and with a uv lock and no venv it is tool-runner mode. -/
theorem resolve_python_spec (fileExists : String → Bool) (repoPath : String)
    (habs : isAbsolutePath repoPath = true) :
    (((resolvePython (detect fileExists repoPath)).tool = "" ∧
      (resolvePython (detect fileExists repoPath)).prefixArgs = [] ∧
      (resolvePython (detect fileExists repoPath)).pythonPath ≠ "" ∧
      ((detect fileExists repoPath).venvPath ≠ "" →
        isAbsolutePath (resolvePython (detect fileExists repoPath)).pythonPath = true)) ∨
     ((resolvePython (detect fileExists repoPath)).tool = "uv" ∧
      (resolvePython (detect fileExists repoPath)).prefixArgs = ["run", "python"] ∧
      (resolvePython (detect fileExists repoPath)).pythonPath = "")) ∧
    (fileExists (joinPath repoPath "uv.lock") = true →
      (detect fileExists repoPath).pythonManager = "uv") ∧
    (fileExists (joinPath repoPath "uv.lock") = true →
     fileExists (joinPath repoPath ".venv/bin/python") = true →
      (detect fileExists repoPath).pythonManager = "uv" ∧
      resolvePython (detect fileExists repoPath) =
        ⟨joinPath repoPath ".venv/bin/python", "", []⟩ ∧
      isAbsolutePath (joinPath repoPath ".venv/bin/python") = true) ∧
    (fileExists (joinPath repoPath "uv.lock") = true →
     fileExists (joinPath repoPath ".venv/bin/python") = false →
      resolvePython (detect fileExists repoPath) = ⟨"", "uv", ["run", "python"]⟩) := by
  have habs' : isAbsolutePath (joinPath repoPath ".venv/bin/python") = true := by
    unfold joinPath
    exact isAbsolutePath_append _ _ (isAbsolutePath_append _ _ habs)
  have hvchar := detect_venvPath fileExists repoPath
  have huvchar := detect_hasUVLock fileExists repoPath
  refine ⟨?_, fun huv => detect_manager_uv fileExists repoPath huv, ?_, ?_⟩
  · by_cases hvenv : fileExists (joinPath repoPath ".venv/bin/python") = true
    · left
      rw [if_pos hvenv] at hvchar
      have hne : (detect fileExists repoPath).venvPath ≠ "" := by
        rw [hvchar]; exact joinPath_ne_empty _ _
      unfold resolvePython
      rw [if_pos hne]
      exact ⟨rfl, rfl, by rw [hvchar]; exact joinPath_ne_empty _ _,
        fun _ => by rw [hvchar]; exact habs'⟩
    · rw [if_neg hvenv] at hvchar
      have hne : ¬ (detect fileExists repoPath).venvPath ≠ "" := by
        rw [hvchar]; simp
      by_cases huv : fileExists (joinPath repoPath "uv.lock") = true
      · right
        unfold resolvePython
        rw [if_neg hne, if_pos (by rw [huvchar]; exact huv)]
        exact ⟨rfl, rfl, rfl⟩
      · left
        unfold resolvePython
        rw [if_neg hne, if_neg (by rw [huvchar]; simpa using huv)]
        exact ⟨rfl, rfl, by simp, fun hcon => absurd hvchar (by simp [hcon])⟩
  · intro huv hvenv
    rw [if_pos hvenv] at hvchar
    have hne : (detect fileExists repoPath).venvPath ≠ "" := by
      rw [hvchar]; exact joinPath_ne_empty _ _
    refine ⟨detect_manager_uv fileExists repoPath huv, ?_, habs'⟩
    unfold resolvePython
    rw [if_pos hne, hvchar]
  · intro huv hvenv
    rw [if_neg (by simp [hvenv])] at hvchar
    have hne : ¬ (detect fileExists repoPath).venvPath ≠ "" := by
      rw [hvchar]; simp
    unfold resolvePython
    rw [if_neg hne, if_pos (by rw [huvchar]; exact huv)]

/-- C9 witness: the probe theorem on a concrete filesystem containing
both a uv lock and a venv interpreter under `/repo`. -/
theorem resolve_python_spec_witness :
    (detect (fun s => s == "/repo/uv.lock" || s == "/repo/.venv/bin/python")
        "/repo").pythonManager = "uv" ∧
    resolvePython (detect (fun s => s == "/repo/uv.lock" || s == "/repo/.venv/bin/python")
        "/repo") = ⟨joinPath "/repo" ".venv/bin/python", "", []⟩ := by
  have h := (resolve_python_spec
    (fun s => s == "/repo/uv.lock" || s == "/repo/.venv/bin/python") "/repo"
    (by decide)).2.2.1 (by decide) (by decide)
  exact ⟨h.1, h.2.1⟩

/- ### Checkpoint tracker and pytest fingerprints (C8) -/

/-- The `checkpointTracker` of worker.go; time is in minutes. -/
structure CheckpointTracker where
  intervalMinutes : Nat
  lastRun : Nat
deriving Repr, DecidableEq

/-- `newCheckpointTracker`: a non-positive configured interval falls back
to the default 30 minutes; `lastRun` starts at creation time. -/
def newCheckpointTracker (minutes : Int) (now : Nat) : CheckpointTracker :=
  { intervalMinutes := (if minutes ≤ 0 then 30 else minutes).toNat,
    lastRun := now }

/-- `checkpointTracker.ShouldRun` (the mutex serializes callers; one call
is one atomic step): gate on elapsed time since the last run, updating
`lastRun` when firing. -/
def shouldRun (now : Nat) (c : CheckpointTracker) : Bool × CheckpointTracker :=
  if now - c.lastRun < c.intervalMinutes then (false, c)
  else (true, { c with lastRun := now })

/-- One entry of the pytest JSON report's `tests` array, reduced to the
fields Normalize reads. -/
structure PytestTest where
  nodeId : String
  outcome : String
  reprcrashMessage : String
  reprEntries : List String
  callCrashMessage : String
deriving Repr, DecidableEq

/-- `pytestLongrepr.String`: the reprcrash message, else the first
traceback entry, else empty. -/
def longreprString (t : PytestTest) : String :=
  if t.reprcrashMessage ≠ "" then t.reprcrashMessage
  else
    match t.reprEntries with
    | [] => ""
    | e :: _ => e

/-- The message resolution in the pytest plugin's Normalize. -/
def findingMessage (t : PytestTest) : String :=
  if longreprString t = "" then t.callCrashMessage else longreprString t

/-- `hashFinding` of the pytest plugin builds the payload
`nodeID | outcome | message` and fingerprints it with hex(SHA-256).  The
hash is a fixed function of the payload, so fingerprint equality is
payload equality; the embedding uses the payload itself as the
fingerprint, which preserves every equality the claims state. -/
def hashFinding (nodeId outcome message : String) : String :=
  String.intercalate "|" [nodeId, outcome, message]

/-- `nodeIDFile`: the file part of a pytest node id. -/
def nodeIDFile (nodeId : String) : String :=
  if nodeId = "" then "" else (nodeId.splitOn "::").headD ""

/-- A normalized pytest finding (the fields Normalize sets). -/
structure FindingM where
  runId : String
  tool : String
  kind : String
  severity : String
  fingerprint : String
  message : String
  filePath : String
  testId : String
  rawRef : String
  createdAt : Nat
deriving Repr, DecidableEq

/-- The pytest plugin's `Normalize` over a parsed report: keep failed and
errored tests, derive severity, message, file and the stable
fingerprint. -/
def pytestNormalize (runId reportPath : String) (now : Nat)
    (tests : List PytestTest) : List FindingM :=
  tests.filterMap fun t =>
    if t.outcome = "failed" ∨ t.outcome = "error" then
      some { runId := runId, tool := "pytest", kind := "test_failure",
             severity := if t.outcome = "error" then "blocker" else "high",
             fingerprint := hashFinding t.nodeId t.outcome (findingMessage t),
             message := findingMessage t, filePath := nodeIDFile t.nodeId,
             testId := t.nodeId, rawRef := reportPath, createdAt := now }
    else none

/-- C8 counterexample — a checkpoint interval configured to 0 does not
make a second collect pass run during the drain: the tracker coerces the
interval to the default 30 minutes, and `ShouldRun` is still false 10
minutes after creation. -/
theorem checkpoint_zero_interval_counterexample :
    (newCheckpointTracker 0 0).intervalMinutes = 30 ∧
    (shouldRun 10 (newCheckpointTracker 0 0)).1 = false := by
  refine ⟨by decide, by decide⟩

/-- C8 (amended) — with `checkpoint_minutes` configured to 0 (or any
non-positive value) the tracker falls back to the default 30 minutes, so
a second collect pass runs only once 30 minutes have elapsed; when a
checkpoint collect pass does run, findings re-produced from inputs with
identical semantic identity (node id, outcome, message) carry
fingerprints equal to the first pass's — Normalize's fingerprints are
independent of the run id, report path and timestamp — so the
append-only findings table then holds duplicates with equal
fingerprints. -/
theorem checkpoint_fingerprint_spec :
    (∀ minutes : Int, minutes ≤ 0 → ∀ t0 : Nat,
      (newCheckpointTracker minutes t0).intervalMinutes = 30) ∧
    (∀ t0 now : Nat, now - t0 < 30 →
      (shouldRun now (newCheckpointTracker 0 t0)).1 = false) ∧
    (∀ t0 now : Nat, 30 ≤ now - t0 →
      (shouldRun now (newCheckpointTracker 0 t0)).1 = true ∧
      (shouldRun now (newCheckpointTracker 0 t0)).2.lastRun = now) ∧
    (∀ (runId1 runId2 reportPath1 reportPath2 : String) (now1 now2 : Nat)
        (tests : List PytestTest),
      (pytestNormalize runId1 reportPath1 now1 tests).map FindingM.fingerprint =
      (pytestNormalize runId2 reportPath2 now2 tests).map FindingM.fingerprint) := by
  refine ⟨?_, ?_, ?_, ?_⟩
  · intro minutes hm t0
    unfold newCheckpointTracker
    rw [if_pos hm]
    rfl
  · intro t0 now h
    unfold shouldRun newCheckpointTracker
    rw [if_pos (by simpa using h)]
  · intro t0 now h
    unfold shouldRun newCheckpointTracker
    rw [if_neg (by simp; omega)]
    exact ⟨rfl, rfl⟩
  · intro r1 r2 p1 p2 n1 n2 tests
    unfold pytestNormalize
    rw [List.map_filterMap, List.map_filterMap]
    congr 1
    funext t
    by_cases h : t.outcome = "failed" ∨ t.outcome = "error" <;> simp [h]

/-- C8 witness: the amended checkpoint theorem at concrete instants —
no second pass 5 minutes in, a pass at 30 minutes. -/
theorem checkpoint_fingerprint_spec_witness :
    (shouldRun 5 (newCheckpointTracker 0 0)).1 = false ∧
    (shouldRun 30 (newCheckpointTracker 0 0)).1 = true :=
  ⟨checkpoint_fingerprint_spec.2.1 0 5 (by decide),
   (checkpoint_fingerprint_spec.2.2.1 0 30 (by decide)).1⟩

end ATQOS
